/-
Verification of the match lifecycle store and its orchestration
(pickleball-notifier).  The definitions below are a shallow embedding of
the Python source files `config.py`, `api_client.py` and
`notification_handler.py`: each Python method is translated into an
executable Lean function over an explicit state, with the current
timestamp passed as an argument.  Python `Optional[str]` fields become
`Option String`, Python truthiness of such fields is made explicit
(`pyTruthy`), and the `self.matches` dict becomes an insertion-ordered
association list keyed by uuid.
-/
import Mathlib

/-- Python `needle in hay` on lists of characters: some suffix of `hay`
starts with `needle`. -/
def charsContain (hay needle : List Char) : Bool :=
  needle.isPrefixOf hay ||
    match hay with
    | [] => false
    | _ :: t => charsContain t needle

/-- Python `needle in hay` for strings (substring containment). -/
def pyInStr (needle hay : String) : Bool :=
  charsContain hay.data needle.data

/-- Python truthiness of an `Optional[str]` value: `None` and the empty
string are falsy, every other string is truthy. -/
def pyTruthy : Option String → Bool
  | none => false
  | some s => !(s == "")

/-- `MatchInfo` dataclass from `config.py` (status is `"future"` or
`"assigned"`; the dataclass defaults are reproduced). -/
structure MatchInfo where
  uuid : String
  url : String
  first_seen : String
  last_seen : String
  status : String
  last_checked : Option String := none
  court_assigned : Bool := false
  court_title : Option String := none
  match_completed : Option String := none
  notified : Bool := false
  notification_timestamp : Option String := none
  deriving DecidableEq, Repr

/-- The mutable state of `ConfigManager` relevant to the match store:
`self.matches`, a dict from uuid to `MatchInfo`, modelled as an
insertion-ordered association list.  (The `execution_history` list is
independent of every match-store operation modelled here; the loading
of both parts from disk is modelled separately below.) -/
structure ConfigManager where
  matchesDict : List (String × MatchInfo)
  deriving DecidableEq, Repr

/-- Dict lookup `self.matches.get(uuid)`: first entry with the key. -/
def getRecord : List (String × MatchInfo) → String → Option MatchInfo
  | [], _ => none
  | p :: ps, uuid => if p.1 = uuid then some p.2 else getRecord ps uuid

/-- Dict entry update `self.matches[uuid] = f(self.matches[uuid])`:
rewrites every entry carrying the key (there is at most one in a dict). -/
def setRecord : List (String × MatchInfo) → String → (MatchInfo → MatchInfo) → List (String × MatchInfo)
  | [], _, _ => []
  | p :: ps, uuid, f =>
      if p.1 = uuid then (p.1, f p.2) :: setRecord ps uuid f
      else p :: setRecord ps uuid f

/-- The record mutation performed by `update_court_assignment`
(config.py) on a known uuid: set `court_assigned`, `court_title`
(cleared when not assigned), `match_completed`, `last_checked = now`;
promote `future` to `assigned` when assigned; and if `match_completed`
is truthy, force `notified = True` with
`notification_timestamp = now`. -/
def applyCourtResultRecord (court_title : String) (assigned : Bool)
    (match_completed : Option String) (now : String) (m : MatchInfo) : MatchInfo :=
  let m1 := { m with
    court_assigned := assigned,
    court_title := if assigned then some court_title else none,
    match_completed := match_completed,
    last_checked := some now }
  let m2 := if assigned && (m1.status == "future")
    then { m1 with status := "assigned" } else m1
  if pyTruthy match_completed
    then { m2 with notified := true, notification_timestamp := some now }
    else m2

/-- `ConfigManager.update_court_assignment` (config.py): mutate the
record of a known uuid, no-op otherwise. -/
def ConfigManager.update_court_assignment (cm : ConfigManager) (uuid court_title : String)
    (assigned : Bool) (match_completed : Option String) (now : String) : ConfigManager :=
  if (getRecord cm.matchesDict uuid).isSome then
    let f := applyCourtResultRecord court_title assigned match_completed now
    { cm with matchesDict := setRecord cm.matchesDict uuid f }
  else cm

/-- The record mutation of `mark_as_notified` (config.py). -/
def markNotifiedRecord (now : String) (m : MatchInfo) : MatchInfo :=
  { m with notified := true, notification_timestamp := some now }

/-- `ConfigManager.mark_as_notified` (config.py). -/
def ConfigManager.mark_as_notified (cm : ConfigManager) (uuid : String) (now : String) : ConfigManager :=
  if (getRecord cm.matchesDict uuid).isSome then
    { cm with matchesDict := setRecord cm.matchesDict uuid (markNotifiedRecord now) }
  else cm

/-- `ConfigManager.get_pending_notifications` (config.py): matches with a
court assignment, not yet notified, and not completed (Python truthiness
of `match_completed`). -/
def ConfigManager.get_pending_notifications (cm : ConfigManager) : List MatchInfo :=
  (cm.matchesDict.map Prod.snd).filter
    (fun m => m.court_assigned && !m.notified && !pyTruthy m.match_completed)

/-- `ConfigManager.get_matches_needing_court_check` (config.py): matches
with status `"future"`. -/
def ConfigManager.get_matches_needing_court_check (cm : ConfigManager) : List MatchInfo :=
  (cm.matchesDict.map Prod.snd).filter (fun m => m.status == "future")

/-- `ConfigManager.remove_stale_matches` (config.py): delete every entry
whose uuid is not in `current_uuids`; return the number removed. -/
def ConfigManager.remove_stale_matches (cm : ConfigManager) (current_uuids : List String) :
    ConfigManager × Nat :=
  let stale := cm.matchesDict.filter (fun p => !(current_uuids.contains p.1))
  ({ cm with matchesDict := cm.matchesDict.filter (fun p => current_uuids.contains p.1) },
   stale.length)

/-- Python `s.split(sep)` (non-empty separator) over character lists:
maximal left-to-right splitting at non-overlapping occurrences.  The
fuel argument (instantiated with the input length) only makes the
recursion structural; each step consumes at least one character. -/
def splitCharsAux (sep : List Char) : Nat → List Char → List Char → List (List Char)
  | _, [], acc => [acc]
  | 0, rest, acc => [acc ++ rest]
  | fuel + 1, c :: rest, acc =>
    if sep.isPrefixOf (c :: rest) then
      acc :: splitCharsAux sep fuel (rest.drop (sep.length - 1)) []
    else
      splitCharsAux sep fuel rest (acc ++ [c])

/-- Python `s.split(sep)` for strings. -/
def pySplit (sep s : String) : List String :=
  (splitCharsAux sep.data s.data.length s.data []).map String.mk

/-- uuid extraction of `update_matches` (config.py): for each url
containing `/results/match/`, the part after the last occurrence; the
resulting collection is a set, modelled as a deduplicated list. -/
def extractUuids (match_urls : List String) : List String :=
  (match_urls.filterMap (fun url =>
    if pyInStr "/results/match/" url then
      some ((pySplit "/results/match/" url).getLastD "")
    else none)).dedup

/-- The fresh record created by `update_matches` for a new uuid. -/
def mkNewMatch (uuid now : String) : MatchInfo :=
  { uuid := uuid
    url := "https://pickleball.com/results/match/" ++ uuid
    first_seen := now
    last_seen := now
    status := "future" }

/-- Return dictionary of `update_matches`. -/
structure UpdateCounts where
  new_matches : Nat
  existing_matches : Nat
  total_matches : Nat
  future_matches : Nat
  assigned_matches : Nat
  deriving DecidableEq, Repr

/-- One iteration of the uuid loop of `update_matches`: bump `last_seen`
for a known uuid, insert a fresh `future` record otherwise. -/
def updateMatchesStep (now : String) (ms : List (String × MatchInfo)) (uuid : String) :
    List (String × MatchInfo) :=
  if (getRecord ms uuid).isSome then
    setRecord ms uuid (fun m => { m with last_seen := now })
  else
    ms ++ [(uuid, mkNewMatch uuid now)]

/-- `ConfigManager.update_matches` (config.py): reconcile the observed
urls against the store and report the counts. -/
def ConfigManager.update_matches (cm : ConfigManager) (match_urls : List String) (now : String) :
    ConfigManager × UpdateCounts :=
  let current_uuids := extractUuids match_urls
  let res := current_uuids.foldl (fun acc uuid =>
      if (getRecord acc.1 uuid).isSome then
        (updateMatchesStep now acc.1 uuid, acc.2.1, acc.2.2 + 1)
      else
        (updateMatchesStep now acc.1 uuid, acc.2.1 + 1, acc.2.2))
    (cm.matchesDict, 0, 0)
  ({ cm with matchesDict := res.1 },
   { new_matches := res.2.1
     existing_matches := res.2.2
     total_matches := res.1.length
     future_matches := (res.1.filter (fun p => p.2.status == "future")).length
     assigned_matches := (res.1.filter (fun p => p.2.status == "assigned")).length })

/-- The arguments of one `update_court_assignment` call. -/
structure CourtCall where
  uuid : String
  court_title : String
  assigned : Bool
  match_completed : Option String
  now : String
  deriving DecidableEq, Repr

/-- Apply a sequence of `update_court_assignment` calls in order. -/
def applyCourtCalls (cm : ConfigManager) (calls : List CourtCall) : ConfigManager :=
  calls.foldl (fun c call =>
    c.update_court_assignment call.uuid call.court_title call.assigned
      call.match_completed call.now) cm

/-- One store operation as issued by the surrounding tracker
(`scraper.py` / `notification_handler.py`) during a polling cycle. -/
inductive TrackerOp where
  | reconcile (match_urls : List String) (now : String)
  | pruneStale (current_uuids : List String)
  | courtCheck (uuid : String) (court_title : String) (assigned : Bool)
      (match_completed : Option String) (now : String)
  | notifyMark (uuid : String) (now : String)
  deriving DecidableEq, Repr

/-- Effect of one tracker-issued operation on the store.  `courtCheck`
carries the guard of `scrape_player_tournament_results` (scraper.py):
`update_court_assignment` is only ever invoked for uuids taken from
`get_matches_needing_court_check`, i.e. for records whose status is
`"future"` at the time of the call. -/
def trackerStep (cm : ConfigManager) : TrackerOp → ConfigManager
  | .reconcile match_urls now => (cm.update_matches match_urls now).1
  | .pruneStale current_uuids => (cm.remove_stale_matches current_uuids).1
  | .courtCheck uuid court_title assigned match_completed now =>
      match getRecord cm.matchesDict uuid with
      | some r =>
          if r.status == "future" then
            cm.update_court_assignment uuid court_title assigned match_completed now
          else cm
      | none => cm
  | .notifyMark uuid now => cm.mark_as_notified uuid now

/-- Apply a list of tracker-issued operations in order. -/
def applyTrackerOps (cm : ConfigManager) (ops : List TrackerOp) : ConfigManager :=
  ops.foldl trackerStep cm

/-- All intermediate states (the initial one included) reached while
applying a list of tracker-issued operations. -/
def trackerTrace (cm : ConfigManager) : List TrackerOp → List ConfigManager
  | [] => [cm]
  | op :: ops => cm :: trackerTrace (trackerStep cm op) ops

/-- Observable events of `process_pending_notifications`
(notification_handler.py): a dispatch attempt for a match (with its
outcome), a `mark_as_notified` call, and a `save_config` call. -/
inductive NotifyEvent where
  | dispatch (uuid : String) (ok : Bool)
  | markNotified (uuid : String)
  | saveConfig
  deriving DecidableEq, Repr

/-- `NotificationHandler.process_pending_notifications`
(notification_handler.py), with `send_notification` abstracted by the
outcome function `sendOk` and the emitted event trace recorded: when
there are no pending matches, return 0 immediately (no save); otherwise
loop over the pending list, marking each successfully dispatched match
as notified, and call `save_config` once after the loop. -/
def process_pending_notifications (cm : ConfigManager) (sendOk : String → Bool) (now : String) :
    ConfigManager × Nat × List NotifyEvent :=
  let pending := cm.get_pending_notifications
  if pending.isEmpty then (cm, 0, [])
  else
    let res := pending.foldl (fun acc m =>
        if sendOk m.uuid then
          (acc.1.mark_as_notified m.uuid now, acc.2.1 + 1,
           acc.2.2 ++ [NotifyEvent.dispatch m.uuid true, NotifyEvent.markNotified m.uuid])
        else
          (acc.1, acc.2.1, acc.2.2 ++ [NotifyEvent.dispatch m.uuid false]))
      (cm, 0, [])
    (res.1, res.2.1, res.2.2 ++ [NotifyEvent.saveConfig])

/-- The persistence discipline claimed by the specification for the
notification pass: after every `markNotified` event, a `saveConfig`
event occurs before any further `dispatch` event.  The flag records
whether a mark is still awaiting its save. -/
def marksPersistedBeforeNextDispatch : Bool → List NotifyEvent → Bool
  | _, [] => true
  | _, NotifyEvent.saveConfig :: rest => marksPersistedBeforeNextDispatch false rest
  | _, NotifyEvent.markNotified _ :: rest => marksPersistedBeforeNextDispatch true rest
  | pendingSave, NotifyEvent.dispatch _ _ :: rest =>
      !pendingSave && marksPersistedBeforeNextDispatch pendingSave rest

/-- A JSON value, as produced by `json.load` / `response.json()` (Python
`None`, `bool`, `int`, `str`, `list`, `dict`). -/
inductive JVal where
  | jnull
  | jbool (b : Bool)
  | jnum (n : Int)
  | jstr (s : String)
  | jarr (xs : List JVal)
  | jobj (fields : List (String × JVal))

/-- Python `v == s` for a string literal `s`: equality holds only for an
equal string; comparison with any other runtime type is `False`. -/
def jvalEqStr (v : JVal) (s : String) : Bool :=
  match v with
  | .jstr t => t == s
  | _ => false

/-- The Python exception classes that can arise in the embedded code.
`requestError` stands for `requests.RequestException`. -/
inductive PyErr where
  | attributeError (msg : String)
  | typeError (msg : String)
  | keyError (msg : String)
  | indexError (msg : String)
  | valueError (msg : String)
  | requestError (msg : String)
  deriving DecidableEq, Repr

/-- Python truthiness of a JSON value. -/
def pyTruthyJ : JVal → Bool
  | .jnull => false
  | .jbool b => b
  | .jnum n => !(n == 0)
  | .jstr s => !(s == "")
  | .jarr xs => !xs.isEmpty
  | .jobj fs => !fs.isEmpty

/-- First value bound to a key in a JSON object's field list. -/
def objFind : List (String × JVal) → String → Option JVal
  | [], _ => none
  | p :: ps, key => if p.1 = key then some p.2 else objFind ps key

/-- Python `d.get(key, default)`: raises `AttributeError` unless the
receiver is a dict. -/
def pyGetD (v : JVal) (key : String) (dflt : JVal) : Except PyErr JVal :=
  match v with
  | .jobj fs => .ok ((objFind fs key).getD dflt)
  | _ => .error (.attributeError "get")

/-- Python `key in v` (membership test): keys for a dict, elements for a
list, substring for a string, `TypeError` otherwise. -/
def pyContains (v : JVal) (key : String) : Except PyErr Bool :=
  match v with
  | .jobj fs => .ok (objFind fs key).isSome
  | .jarr xs => .ok (xs.any (fun x => jvalEqStr x key))
  | .jstr s => .ok (pyInStr key s)
  | _ => .error (.typeError "argument is not iterable")

/-- Python subscription `v[k]`: dict lookup with `KeyError`, list index
with `IndexError` (non-negative indices suffice here), `TypeError`
otherwise. -/
def pySubscript (v : JVal) (k : JVal) : Except PyErr JVal :=
  match v, k with
  | .jobj fs, .jstr key =>
      match objFind fs key with
      | some w => .ok w
      | none => .error (.keyError key)
  | .jarr xs, .jnum n =>
      if h : 0 ≤ n ∧ n.toNat < xs.length then .ok (xs.get ⟨n.toNat, h.2⟩)
      else .error (.indexError "list index out of range")
  | .jarr _, _ => .error (.typeError "list indices must be integers")
  | .jstr _, _ => .error (.typeError "string indices must be integers")
  | _, _ => .error (.typeError "object is not subscriptable")

/-- Python `len(v)`: lists, strings and dicts have a length, `TypeError`
otherwise. -/
def pyLen (v : JVal) : Except PyErr Nat :=
  match v with
  | .jarr xs => .ok xs.length
  | .jstr s => .ok s.length
  | .jobj fs => .ok fs.length
  | _ => .error (.typeError "object has no len")

/-- Leading and trailing whitespace removal on a character list. -/
def trimChars (cs : List Char) : List Char :=
  ((cs.dropWhile Char.isWhitespace).reverse.dropWhile Char.isWhitespace).reverse

/-- Python `s.strip()` on a string. -/
def pyStripStr (s : String) : String :=
  String.mk (trimChars s.data)

/-- Python `v.strip()`: only strings have `strip`; stripping removes
leading and trailing whitespace. -/
def pyStrip (v : JVal) : Except PyErr String :=
  match v with
  | .jstr s => .ok (pyStripStr s)
  | _ => .error (.attributeError "strip")

/-- The expression `v.strip() if v else ''` of `_extract_player_names`
(api_client.py). -/
def pyCondStrip (v : JVal) : Except PyErr String :=
  if pyTruthyJ v then pyStrip v else .ok ""

/-- The expression `bool(v and v.strip())` of `get_match_info`
(api_client.py): court assignment is detected from a non-blank
`court_title`. -/
def pyBoolAndStrip (v : JVal) : Except PyErr Bool := do
  if pyTruthyJ v then
    let s ← pyStrip v
    pure (!(s == ""))
  else
    pure false

/-- Case-insensitive containment of the tracked player's first name,
`'adam' in player.lower()` (api_client.py). -/
def containsAdam (player : String) : Bool :=
  pyInStr "adam" player.toLower

/-- The team-roster collection loops of `_extract_player_names`
(api_client.py): for each key present in the payload, evaluate
`match_data[key].strip() if match_data[key] else ''` and keep the
non-empty results in field order. -/
def collectPlayers (match_data : JVal) : List String → Except PyErr (List String)
  | [] => .ok []
  | key :: keys => do
    let present ← pyContains match_data key
    if present then
      let v ← pySubscript match_data (.jstr key)
      let name ← pyCondStrip v
      let rest ← collectPlayers match_data keys
      pure (if name == "" then rest else name :: rest)
    else
      collectPlayers match_data keys

/-- `PickleballApiClient._extract_player_names` (api_client.py):
determine the tracked player's team by the `'adam'` substring test,
return the first other name on that team as the partner and the whole
other team as the opponents (`None` when empty); `(None, None)` when
neither team contains the tracked player. -/
def _extract_player_names (match_data : JVal) :
    Except PyErr (Option String × Option (List String)) := do
  let team_one ← collectPlayers match_data
    ["team_one_player_one_name", "team_one_player_two_name"]
  let team_two ← collectPlayers match_data
    ["team_two_player_one_name", "team_two_player_two_name"]
  let adam_team : Option Bool :=
    if team_one.any containsAdam then some true
    else if team_two.any containsAdam then some false
    else none
  match adam_team with
  | none => pure (none, none)
  | some onTeamOne =>
    let mine := if onTeamOne then team_one else team_two
    let theirs := if onTeamOne then team_two else team_one
    let partner_name := mine.find? (fun p => !containsAdam p)
    pure (partner_name, if theirs.isEmpty then none else some theirs)

/-- `MatchApiResult` dataclass (api_client.py).  The payload-derived
fields keep their dynamic (JSON) type, since the Python code stores
whatever the payload held. -/
structure MatchApiResult where
  uuid : String
  success : Bool
  court_assigned : Bool
  court_title : Option JVal := none
  match_completed : JVal := .jnull
  error_message : Option String := none
  response_data : Option JVal := none
  partner_name : Option String := none
  opponent_names : Option (List String) := none

/-- Outcome of the network part of `get_match_info`: a
`requests.RequestException` from `session.get`/`raise_for_status`, a
`ValueError` from `response.json()`, or a parsed JSON body. -/
inductive ApiResponse where
  | networkError (msg : String)
  | jsonError (msg : String)
  | ok (body : JVal)

/-- The `try` block of `get_match_info` (api_client.py). -/
def tryGetMatchInfo (uuid : String) (resp : ApiResponse) : Except PyErr MatchApiResult := do
  let data ← match resp with
    | .networkError msg => .error (.requestError msg)
    | .jsonError msg => .error (.valueError msg)
    | .ok body => pure body
  let hasData ← pyContains data "data"
  let nonempty ← if hasData then do
      let d ← pySubscript data (.jstr "data")
      let n ← pyLen d
      pure (decide (0 < n))
    else pure false
  if nonempty then
    let d ← pySubscript data (.jstr "data")
    let match_data ← pySubscript d (.jnum 0)
    let court_title ← pyGetD match_data "court_title" (.jstr "")
    let match_completed ← pyGetD match_data "match_completed" .jnull
    let court_assigned ← pyBoolAndStrip court_title
    let names ← _extract_player_names match_data
    pure { uuid := uuid
           success := true
           court_assigned := court_assigned
           court_title := if court_assigned then some court_title else none
           match_completed := match_completed
           response_data := some data
           partner_name := names.1
           opponent_names := names.2 }
  else
    pure { uuid := uuid
           success := false
           court_assigned := false
           error_message := some "No data found in API response" }

/-- `PickleballApiClient.get_match_info` (api_client.py): the `try`
block guarded by `except requests.RequestException` and
`except (KeyError, IndexError, ValueError)`.  Exceptions outside those
classes propagate to the caller. -/
def get_match_info (uuid : String) (resp : ApiResponse) : Except PyErr MatchApiResult :=
  match tryGetMatchInfo uuid resp with
  | .ok r => .ok r
  | .error (.requestError msg) =>
      .ok { uuid := uuid, success := false, court_assigned := false
            error_message := some ("Request failed: " ++ msg) }
  | .error (.keyError msg) =>
      .ok { uuid := uuid, success := false, court_assigned := false
            error_message := some ("Data parsing error: " ++ msg) }
  | .error (.indexError msg) =>
      .ok { uuid := uuid, success := false, court_assigned := false
            error_message := some ("Data parsing error: " ++ msg) }
  | .error (.valueError msg) =>
      .ok { uuid := uuid, success := false, court_assigned := false
            error_message := some ("Data parsing error: " ++ msg) }
  | .error e => .error e

/-- Python iteration `for x in v`: list elements, dict keys, string
characters; `TypeError` for the other types. -/
def pyIter (v : JVal) : Except PyErr (List JVal) :=
  match v with
  | .jarr xs => .ok xs
  | .jobj fs => .ok (fs.map (fun p => JVal.jstr p.1))
  | .jstr s => .ok (s.data.map (fun c => JVal.jstr (String.mk [c])))
  | _ => .error (.typeError "object is not iterable")

/-- Python `d[key] = value` on a dict: replace the bound value (the key
is present at every use site below); `TypeError` otherwise. -/
def pySetKey (v : JVal) (key : String) (w : JVal) : Except PyErr JVal :=
  match v with
  | .jobj fs => .ok (.jobj (fs.map (fun p => if p.1 = key then (p.1, w) else p)))
  | _ => .error (.typeError "object does not support item assignment")

/-- A `MatchInfo` as (re)constructed by `MatchInfo(**match_data)` during
`load_config`: the dataclass constructor does not check field types, so
every field keeps its dynamic (JSON) value; dataclass defaults are
reproduced. -/
structure LoadedMatchInfo where
  uuid : JVal
  url : JVal
  first_seen : JVal
  last_seen : JVal
  status : JVal
  last_checked : JVal := .jnull
  court_assigned : JVal := .jbool false
  court_title : JVal := .jnull
  match_completed : JVal := .jnull
  notified : JVal := .jbool false
  notification_timestamp : JVal := .jnull

/-- An `ExecutionRecord` as (re)constructed by
`ExecutionRecord(**record_data)` during `load_config`. -/
structure LoadedExecRecord where
  timestamp : JVal
  matches_found : JVal
  new_matches : JVal
  future_matches : JVal
  assigned_matches : JVal
  court_assignments_checked : JVal := .jnum 0
  court_assignments_found : JVal := .jnum 0
  notifications_sent : JVal := .jnum 0
  stale_matches_removed : JVal := .jnum 0

/-- The field names of the `MatchInfo` dataclass (config.py). -/
def matchInfoFieldNames : List String :=
  ["uuid", "url", "first_seen", "last_seen", "status", "last_checked",
   "court_assigned", "court_title", "match_completed", "notified",
   "notification_timestamp"]

/-- The `MatchInfo` fields without a dataclass default. -/
def matchInfoRequired : List String :=
  ["uuid", "url", "first_seen", "last_seen", "status"]

/-- The field names of the `ExecutionRecord` dataclass (config.py). -/
def execRecordFieldNames : List String :=
  ["timestamp", "matches_found", "new_matches", "future_matches",
   "assigned_matches", "court_assignments_checked",
   "court_assignments_found", "notifications_sent", "stale_matches_removed"]

/-- The `ExecutionRecord` fields without a dataclass default. -/
def execRecordRequired : List String :=
  ["timestamp", "matches_found", "new_matches", "future_matches",
   "assigned_matches"]

/-- Python `MatchInfo(**match_data)`: a `TypeError` when the argument is
not a dict, holds an unexpected keyword, or misses a required one;
otherwise the dataclass instance with defaults filled in. -/
def kwargsMatchInfo (v : JVal) : Except PyErr LoadedMatchInfo :=
  match v with
  | .jobj fs =>
    if fs.all (fun p => matchInfoFieldNames.contains p.1)
        && matchInfoRequired.all (fun k => (objFind fs k).isSome) then
      .ok { uuid := (objFind fs "uuid").getD .jnull
            url := (objFind fs "url").getD .jnull
            first_seen := (objFind fs "first_seen").getD .jnull
            last_seen := (objFind fs "last_seen").getD .jnull
            status := (objFind fs "status").getD .jnull
            last_checked := (objFind fs "last_checked").getD .jnull
            court_assigned := (objFind fs "court_assigned").getD (.jbool false)
            court_title := (objFind fs "court_title").getD .jnull
            match_completed := (objFind fs "match_completed").getD .jnull
            notified := (objFind fs "notified").getD (.jbool false)
            notification_timestamp :=
              (objFind fs "notification_timestamp").getD .jnull }
    else .error (.typeError "unexpected or missing keyword argument")
  | _ => .error (.typeError "argument after ** must be a mapping")

/-- Python `ExecutionRecord(**record_data)`. -/
def kwargsExecRecord (v : JVal) : Except PyErr LoadedExecRecord :=
  match v with
  | .jobj fs =>
    if fs.all (fun p => execRecordFieldNames.contains p.1)
        && execRecordRequired.all (fun k => (objFind fs k).isSome) then
      .ok { timestamp := (objFind fs "timestamp").getD .jnull
            matches_found := (objFind fs "matches_found").getD .jnull
            new_matches := (objFind fs "new_matches").getD .jnull
            future_matches := (objFind fs "future_matches").getD .jnull
            assigned_matches := (objFind fs "assigned_matches").getD .jnull
            court_assignments_checked :=
              (objFind fs "court_assignments_checked").getD (.jnum 0)
            court_assignments_found :=
              (objFind fs "court_assignments_found").getD (.jnum 0)
            notifications_sent := (objFind fs "notifications_sent").getD (.jnum 0)
            stale_matches_removed :=
              (objFind fs "stale_matches_removed").getD (.jnum 0) }
    else .error (.typeError "unexpected or missing keyword argument")
  | _ => .error (.typeError "argument after ** must be a mapping")

/-- The legacy-status migration of `load_config` (config.py): map
`'current'` to `'assigned'` and `'unknown'` to `'future'` in place
before constructing the dataclass. -/
def migrateStatus (match_data : JVal) : Except PyErr JVal := do
  let st ← pyGetD match_data "status" .jnull
  if jvalEqStr st "current" then
    pySetKey match_data "status" (.jstr "assigned")
  else if jvalEqStr st "unknown" then
    pySetKey match_data "status" (.jstr "future")
  else
    pure match_data

/-- The match-loading loop of `load_config` (config.py). -/
def loadMatches : List (String × JVal) → Except PyErr (List (String × LoadedMatchInfo))
  | [] => .ok []
  | (uuid, match_data) :: rest => do
    let md ← migrateStatus match_data
    let mi ← kwargsMatchInfo md
    let tail ← loadMatches rest
    pure ((uuid, mi) :: tail)

/-- The execution-history loop of `load_config` (config.py): entries in
the legacy layout (recognised by a `completed_matches` field) are
reshaped before construction. -/
def loadHistory : List JVal → Except PyErr (List LoadedExecRecord)
  | [] => .ok []
  | record_data :: rest => do
    let legacy ← pyContains record_data "completed_matches"
    let entry ←
      if legacy then do
        let ts ← pySubscript record_data (.jstr "timestamp")
        let mf ← pySubscript record_data (.jstr "matches_found")
        let nm ← pySubscript record_data (.jstr "new_matches")
        let fm ← pyGetD record_data "unknown_matches" (.jnum 0)
        let am ← pyGetD record_data "completed_matches" (.jnum 0)
        kwargsExecRecord (.jobj
          [("timestamp", ts), ("matches_found", mf), ("new_matches", nm),
           ("future_matches", fm), ("assigned_matches", am)])
      else
        kwargsExecRecord record_data
    let tail ← loadHistory rest
    pure (entry :: tail)

/-- The body of the `try` block of `load_config` (config.py) after a
successful `json.load`. -/
def loadBody (data : JVal) : Except PyErr (List (String × LoadedMatchInfo) × List LoadedExecRecord) := do
  let matchesVal ← pyGetD data "matches" (.jobj [])
  let items ← match matchesVal with
    | .jobj fs => Except.ok fs
    | _ => Except.error (PyErr.attributeError "items")
  let ms ← loadMatches items
  let histVal ← pyGetD data "execution_history" (.jarr [])
  let entries ← pyIter histVal
  let hist ← loadHistory entries
  pure (ms, hist)

/-- The relevant state of the persisted file for `load_config`: absent,
present but not valid JSON (`json.load` raises `json.JSONDecodeError`),
or parsed into a JSON value. -/
inductive FileState where
  | missing
  | unparseable (msg : String)
  | parsed (data : JVal)

/-- `ConfigManager.load_config` (config.py): a missing file leaves the
fresh empty state (after `save_config`); the `try` block is guarded by
`except (json.JSONDecodeError, KeyError, TypeError)`, which resets the
store to empty; exceptions outside those classes propagate.  The result
is the pair (`self.matches`, `self.execution_history`). -/
def load_config (fs : FileState) :
    Except PyErr (List (String × LoadedMatchInfo) × List LoadedExecRecord) :=
  match fs with
  | .missing => .ok ([], [])
  | .unparseable _ => .ok ([], [])
  | .parsed data =>
    match loadBody data with
    | .ok r => .ok r
    | .error (.valueError _) => .ok ([], [])
    | .error (.keyError _) => .ok ([], [])
    | .error (.typeError _) => .ok ([], [])
    | .error e => .error e

/-- The JSON value of a present roster name field: `null` or a string. -/
def encodeW : Option String → JVal
  | none => .jnull
  | some s => .jstr s

/-- One optional roster field of the upstream payload: absent from the
mapping, bound to `null`, or bound to a string. -/
def rosterField : Option (Option String) → List (String × JVal) → String → List (String × JVal)
  | none, fs, _ => fs
  | some w, fs, key => fs ++ [(key, encodeW w)]

/-- A roster field mapping with up to two named players per side, every
present name field holding `null` or a string. -/
structure RosterFields where
  t1p1 : Option (Option String)
  t1p2 : Option (Option String)
  t2p1 : Option (Option String)
  t2p2 : Option (Option String)

/-- The field list of the payload dict described by a `RosterFields`. -/
def rosterFieldsList (rf : RosterFields) : List (String × JVal) :=
  rosterField rf.t2p2
    (rosterField rf.t2p1
      (rosterField rf.t1p2
        (rosterField rf.t1p1 [] "team_one_player_one_name")
        "team_one_player_two_name")
      "team_two_player_one_name")
    "team_two_player_two_name"

/-- The payload dict described by a `RosterFields`. -/
def rosterToObj (rf : RosterFields) : JVal :=
  .jobj (rosterFieldsList rf)

/-- Specification-side definition, following the words of spec §4.3
(roster collection): the non-empty
trimmed names of one side, in field order; an absent or `null` field and
a name that is blank after trimming contribute nothing. -/
def specContrib : Option (Option String) → Option String
  | some (some s) => if pyStripStr s == "" then none else some (pyStripStr s)
  | _ => none

/-- The non-empty trimmed names of one side, in field order (spec
§4.3). -/
def specSideNames (side : List (Option (Option String))) : List String :=
  side.filterMap specContrib

/-- Specification-side definition, following the words of spec §4.3:
identify the tracked player's side by
case-insensitive first-name containment; if neither side matches return
no roster info; otherwise the partner is the first other name on the
tracked player's side and the opponents are the other side's names in
order, unset when empty. -/
def specExtract (rf : RosterFields) : Option String × Option (List String) :=
  let sideA := specSideNames [rf.t1p1, rf.t1p2]
  let sideB := specSideNames [rf.t2p1, rf.t2p2]
  if sideA.any containsAdam then
    (sideA.find? (fun n => !containsAdam n), if sideB.isEmpty then none else some sideB)
  else if sideB.any containsAdam then
    (sideB.find? (fun n => !containsAdam n), if sideA.isEmpty then none else some sideA)
  else
    (none, none)

/-- A concrete store with one known future match (witness input). -/
def cmC1ex : ConfigManager := ⟨[("u1", mkNewMatch "u1" "t0")]⟩

/-- A concrete store with one already-assigned match (witness input). -/
def cmC2ex : ConfigManager :=
  ⟨[("u2", { mkNewMatch "u2" "t0" with status := "assigned" })]⟩

/-- A concrete store with two known matches (witness input). -/
def cmC3ex : ConfigManager :=
  ⟨[("a3", mkNewMatch "a3" "t0"), ("b3", mkNewMatch "b3" "t0")]⟩

/-- A concrete store with two matches awaiting notification
(counterexample input): both have a court assigned, are not notified,
and are not completed. -/
def cmC5ex : ConfigManager :=
  ⟨[("a5", { mkNewMatch "a5" "t0" with
              status := "assigned", court_assigned := true, court_title := some "CC1" }),
    ("b5", { mkNewMatch "b5" "t0" with
              status := "assigned", court_assigned := true, court_title := some "CC2" })]⟩

/-- A concrete store with one match whose completion marker is set
(counterexample input). -/
def cmC6ex : ConfigManager :=
  ⟨[("u6", { mkNewMatch "u6" "t0" with
              status := "assigned", court_assigned := true, court_title := some "CC3",
              match_completed := some "2025-01-01T00:00:00", notified := true,
              notification_timestamp := some "t0" })]⟩

/-- A successful HTTP response whose payload carries a malformed roster
field: `team_one_player_one_name` holds the number 5 instead of a
string (failing input). -/
def c7FailingResp : ApiResponse :=
  .ok (.jobj [("data", .jarr
    [.jobj [("court_title", .jstr "Court 7"),
            ("team_one_player_one_name", .jnum 5)]])])

/-- A concrete store with one assigned, already-notified match (witness
input). -/
def cmC10ex : ConfigManager :=
  ⟨[("u0", { mkNewMatch "u0" "t0" with
              status := "assigned", court_assigned := true, court_title := some "CC4",
              notified := true, notification_timestamp := some "t0" })]⟩

/-- A concrete operation sequence in which the record `u0` stays
observed throughout (witness input): a court check (blocked by the
status guard), a reconcile observing the match, a pruning keeping it,
and a notification mark. -/
def opsC10ex : List TrackerOp :=
  [TrackerOp.courtCheck "u0" "CC5" true none "t3",
   TrackerOp.reconcile ["https://pickleball.com/results/match/u0"] "t4",
   TrackerOp.pruneStale ["u0"],
   TrackerOp.notifyMark "u0" "t5"]


theorem getRecord_setRecord (ms : List (String × MatchInfo)) (u : String)
    (f : MatchInfo → MatchInfo) (v : String) :
    getRecord (setRecord ms u f) v =
      if v = u then (getRecord ms u).map f else getRecord ms v := by
  induction ms with
  | nil => simp [getRecord, setRecord]
  | cons p ps ih =>
    simp only [setRecord]
    by_cases h1 : p.1 = u
    · by_cases h2 : v = u
      · subst h2; simp [getRecord, h1]
      · have h3 : ¬(p.1 = v) := by rw [h1]; exact fun hh => h2 hh.symm
        have h5 : ¬(u = v) := fun hh => h2 hh.symm
        simp [getRecord, h1, h2, h3, h5, ih]
    · by_cases h2 : p.1 = v
      · have h4 : ¬(v = u) := by
          intro hh
          exact h1 (by rw [h2, hh])
        simp [getRecord, h1, h2, h4]
      · simp [getRecord, h1, h2, ih]

theorem getRecord_append_left (ms ns : List (String × MatchInfo)) (v : String)
    (h : (getRecord ms v).isSome = true) :
    getRecord (ms ++ ns) v = getRecord ms v := by
  induction ms with
  | nil => simp [getRecord] at h
  | cons p ps ih =>
    by_cases h1 : p.1 = v
    · simp [getRecord, h1]
    · have h' : (getRecord ps v).isSome = true := by
        simpa [getRecord, h1] using h
      simp [getRecord, h1, ih h']

theorem getRecord_append_right (ms ns : List (String × MatchInfo)) (v : String)
    (h : getRecord ms v = none) :
    getRecord (ms ++ ns) v = getRecord ns v := by
  induction ms with
  | nil => simp [getRecord]
  | cons p ps ih =>
    by_cases h1 : p.1 = v
    · simp [getRecord, h1] at h
    · have h' : getRecord ps v = none := by
        simpa [getRecord, h1] using h
      simp [getRecord, h1, ih h']

theorem uca_getRecord (cm : ConfigManager) (uuid ct : String) (a : Bool)
    (mc : Option String) (now v : String) :
    getRecord (cm.update_court_assignment uuid ct a mc now).matchesDict v =
      if v = uuid then (getRecord cm.matchesDict uuid).map (applyCourtResultRecord ct a mc now)
      else getRecord cm.matchesDict v := by
  unfold ConfigManager.update_court_assignment
  by_cases h : (getRecord cm.matchesDict uuid).isSome = true
  · simp [h, getRecord_setRecord]
  · have h0 : getRecord cm.matchesDict uuid = none := by
      cases hx : getRecord cm.matchesDict uuid with
      | none => rfl
      | some r => rw [hx] at h; simp at h
    simp only [h, if_false, Bool.false_eq_true]
    by_cases hv : v = uuid
    · subst hv; simp [h0]
    · simp [hv]

theorem man_getRecord (cm : ConfigManager) (uuid now v : String) :
    getRecord (cm.mark_as_notified uuid now).matchesDict v =
      if v = uuid then (getRecord cm.matchesDict uuid).map (markNotifiedRecord now)
      else getRecord cm.matchesDict v := by
  unfold ConfigManager.mark_as_notified
  by_cases h : (getRecord cm.matchesDict uuid).isSome = true
  · simp [h, getRecord_setRecord]
  · have h0 : getRecord cm.matchesDict uuid = none := by
      cases hx : getRecord cm.matchesDict uuid with
      | none => rfl
      | some r => rw [hx] at h; simp at h
    simp only [h, if_false, Bool.false_eq_true]
    by_cases hv : v = uuid
    · subst hv; simp [h0]
    · simp [hv]

theorem applyCourtResultRecord_status (ct : String) (a : Bool) (mc : Option String)
    (now : String) (m : MatchInfo) :
    (applyCourtResultRecord ct a mc now m).status =
      if a && (m.status == "future") then "assigned" else m.status := by
  by_cases h1 : a && (m.status == "future") <;>
    by_cases h2 : pyTruthy mc <;>
      simp [applyCourtResultRecord, h1, h2]

theorem applyCourtResultRecord_court_assigned (ct : String) (a : Bool) (mc : Option String)
    (now : String) (m : MatchInfo) :
    (applyCourtResultRecord ct a mc now m).court_assigned = a := by
  by_cases h1 : a && (m.status == "future") <;>
    by_cases h2 : pyTruthy mc <;>
      simp [applyCourtResultRecord, h1, h2]

theorem applyCourtResultRecord_court_title (ct : String) (a : Bool) (mc : Option String)
    (now : String) (m : MatchInfo) :
    (applyCourtResultRecord ct a mc now m).court_title =
      if a then some ct else none := by
  by_cases h1 : a && (m.status == "future") <;>
    by_cases h2 : pyTruthy mc <;>
      simp [applyCourtResultRecord, h1, h2]

theorem applyCourtResultRecord_match_completed (ct : String) (a : Bool) (mc : Option String)
    (now : String) (m : MatchInfo) :
    (applyCourtResultRecord ct a mc now m).match_completed = mc := by
  by_cases h1 : a && (m.status == "future") <;>
    by_cases h2 : pyTruthy mc <;>
      simp [applyCourtResultRecord, h1, h2]

theorem applyCourtResultRecord_notified (ct : String) (a : Bool) (mc : Option String)
    (now : String) (m : MatchInfo) :
    (applyCourtResultRecord ct a mc now m).notified =
      if pyTruthy mc then true else m.notified := by
  by_cases h1 : a && (m.status == "future") <;>
    by_cases h2 : pyTruthy mc <;>
      simp [applyCourtResultRecord, h1, h2]

theorem applyCourtResultRecord_notification_timestamp (ct : String) (a : Bool)
    (mc : Option String) (now : String) (m : MatchInfo) :
    (applyCourtResultRecord ct a mc now m).notification_timestamp =
      if pyTruthy mc then some now else m.notification_timestamp := by
  by_cases h1 : a && (m.status == "future") <;>
    by_cases h2 : pyTruthy mc <;>
      simp [applyCourtResultRecord, h1, h2]

/-- C1: calling `update_court_assignment` on a stored record with a set
(truthy) completion marker makes the record notified with its timestamp
set in the same call; `get_pending_notifications` returns exactly the
stored records with a court assigned, not notified, and completion
marker unset; hence a record whose completion marker is set never
appears among the pending notifications. -/
theorem claim_c1_completion_suppresses (cm : ConfigManager) (uuid court_title : String)
    (assigned : Bool) (mc : Option String) (now : String) (r : MatchInfo)
    (hr : getRecord cm.matchesDict uuid = some r) (hmc : pyTruthy mc = true) :
    (∃ r', getRecord (cm.update_court_assignment uuid court_title assigned mc now).matchesDict uuid
        = some r' ∧ r'.notified = true ∧ r'.notification_timestamp = some now)
    ∧ (∀ m, m ∈ cm.get_pending_notifications ↔
        (m ∈ cm.matchesDict.map Prod.snd ∧ m.court_assigned = true ∧ m.notified = false
          ∧ pyTruthy m.match_completed = false))
    ∧ (∀ m, pyTruthy m.match_completed = true → m ∉ cm.get_pending_notifications) := by
  refine ⟨?_, ?_, ?_⟩
  · refine ⟨applyCourtResultRecord court_title assigned mc now r, ?_, ?_, ?_⟩
    · rw [uca_getRecord]
      simp [hr]
    · rw [applyCourtResultRecord_notified]
      simp [hmc]
    · rw [applyCourtResultRecord_notification_timestamp]
      simp [hmc]
  · intro m
    simp [ConfigManager.get_pending_notifications, List.mem_filter, and_assoc]
  · intro m h hmem
    simp [ConfigManager.get_pending_notifications, List.mem_filter] at hmem
    rw [h] at hmem
    simp at hmem

/-- Witness for C1 at a concrete store, uuid and completion marker. -/
theorem claim_c1_witness :
    ∃ r', getRecord (cmC1ex.update_court_assignment "u1" "Court 1" true (some "done") "t1").matchesDict "u1"
        = some r' ∧ r'.notified = true ∧ r'.notification_timestamp = some "t1" :=
  (claim_c1_completion_suppresses cmC1ex "u1" "Court 1" true (some "done") "t1"
    (mkNewMatch "u1" "t0") (by decide) (by decide)).1

theorem uca_preserves_assigned (cm : ConfigManager) (u : String) (r : MatchInfo)
    (hr : getRecord cm.matchesDict u = some r) (hst : r.status = "assigned")
    (uuid ct : String) (a : Bool) (mc : Option String) (now : String) :
    ∃ r', getRecord (cm.update_court_assignment uuid ct a mc now).matchesDict u = some r'
      ∧ r'.status = "assigned" := by
  rw [uca_getRecord]
  by_cases hv : u = uuid
  · subst hv
    rw [hr]
    refine ⟨applyCourtResultRecord ct a mc now r, by simp, ?_⟩
    rw [applyCourtResultRecord_status]
    have hbf : (r.status == "future") = false := by
      rw [hst]; decide
    simp [hbf, hst]
  · refine ⟨r, ?_, hst⟩
    simp [hv, hr]

theorem applyCourtCalls_preserves_assigned (calls : List CourtCall) :
    ∀ (cm : ConfigManager) (u : String) (r : MatchInfo),
      getRecord cm.matchesDict u = some r → r.status = "assigned" →
      ∃ r', getRecord (applyCourtCalls cm calls).matchesDict u = some r'
        ∧ r'.status = "assigned" := by
  induction calls with
  | nil =>
    intro cm u r hr hst
    exact ⟨r, hr, hst⟩
  | cons call rest ih =>
    intro cm u r hr hst
    obtain ⟨r', hr', hst'⟩ := uca_preserves_assigned cm u r hr hst
      call.uuid call.court_title call.assigned call.match_completed call.now
    exact ih _ u r' hr' hst'

/-- C2: the status of a stored record moves only from `"future"` to
`"assigned"`: one `update_court_assignment` call either leaves the
status unchanged or promotes a `"future"` record to `"assigned"`, and no
sequence of `update_court_assignment` calls moves an `"assigned"` record
back to `"future"`. -/
theorem claim_c2_monotonic_status (cm : ConfigManager) (u : String) (r : MatchInfo)
    (hr : getRecord cm.matchesDict u = some r) :
    (∀ uuid ct a mc now, ∃ r',
        getRecord (cm.update_court_assignment uuid ct a mc now).matchesDict u = some r' ∧
          (r'.status = r.status ∨ (r.status = "future" ∧ r'.status = "assigned")))
    ∧ (r.status = "assigned" → ∀ calls : List CourtCall, ∃ r',
        getRecord (applyCourtCalls cm calls).matchesDict u = some r'
          ∧ r'.status = "assigned") := by
  constructor
  · intro uuid ct a mc now
    rw [uca_getRecord]
    by_cases hv : u = uuid
    · subst hv
      rw [hr]
      refine ⟨applyCourtResultRecord ct a mc now r, by simp, ?_⟩
      rw [applyCourtResultRecord_status]
      by_cases hc : (a && (r.status == "future")) = true
      · right
        refine ⟨?_, by simp [hc]⟩
        simp only [Bool.and_eq_true, beq_iff_eq] at hc
        exact hc.2
      · left
        simp [hc]
    · refine ⟨r, ?_, Or.inl rfl⟩
      simp [hv, hr]
  · intro hst calls
    exact applyCourtCalls_preserves_assigned calls cm u r hr hst

/-- Witness for C2 at a concrete store and call sequence (one call
reporting the court gone again, one reporting completion). -/
theorem claim_c2_witness :
    ∃ r', getRecord (applyCourtCalls cmC2ex
        [⟨"u2", "CC6", false, none, "t1"⟩, ⟨"u2", "CC7", true, some "done", "t2"⟩]).matchesDict "u2"
      = some r' ∧ r'.status = "assigned" :=
  (claim_c2_monotonic_status cmC2ex "u2" { mkNewMatch "u2" "t0" with status := "assigned" }
    (by decide)).2 (by decide) _

theorem getRecord_filter_keyPred (ms : List (String × MatchInfo)) (q : String → Bool) (u : String) :
    getRecord (ms.filter (fun p => q p.1)) u = if q u then getRecord ms u else none := by
  induction ms with
  | nil => simp [getRecord]
  | cons p ps ih =>
    by_cases hq : q p.1
    · by_cases h1 : p.1 = u
      · subst h1
        simp [List.filter_cons, hq, getRecord, ih]
      · simp [List.filter_cons, hq, getRecord, h1, ih]
    · by_cases h1 : p.1 = u
      · subst h1
        simp [List.filter_cons, hq, getRecord, ih]
      · simp [List.filter_cons, hq, getRecord, h1, ih]

theorem length_filter_keyPred (ms : List (String × MatchInfo)) (q : String → Bool) :
    (ms.filter (fun p => q p.1)).length = ((ms.map Prod.fst).filter q).length := by
  induction ms with
  | nil => rfl
  | cons p ps ih =>
    by_cases hq : q p.1 <;> simp [List.filter_cons, hq, ih]

/-- C3: after `remove_stale_matches current`, the stored uuids are
exactly the previously stored uuids that are in `current`, the
surviving records are unchanged, and the returned count is the number
of stored uuids not in `current`. -/
theorem claim_c3_prune (cm : ConfigManager) (current : List String)
    (hnd : (cm.matchesDict.map Prod.fst).Nodup) :
    (∀ u, (getRecord (cm.remove_stale_matches current).1.matchesDict u).isSome = true
        ↔ ((getRecord cm.matchesDict u).isSome = true ∧ u ∈ current))
    ∧ (∀ u, u ∈ current →
        getRecord (cm.remove_stale_matches current).1.matchesDict u = getRecord cm.matchesDict u)
    ∧ (cm.remove_stale_matches current).2
        = ((cm.matchesDict.map Prod.fst).toFinset \ current.toFinset).card := by
  refine ⟨?_, ?_, ?_⟩
  · intro u
    show (getRecord (cm.matchesDict.filter (fun p => current.contains p.1)) u).isSome = true ↔ _
    rw [getRecord_filter_keyPred]
    by_cases hc : current.contains u
    · have hm : u ∈ current := by
        simpa using hc
      simp [hc, hm]
    · have hm : u ∉ current := by
        simpa using hc
      simp [hc, hm]
  · intro u hm
    show getRecord (cm.matchesDict.filter (fun p => current.contains p.1)) u = _
    rw [getRecord_filter_keyPred]
    have hc : current.contains u = true := by
      simpa using hm
    simp [hc, hm]
  · show (cm.matchesDict.filter (fun p => !(current.contains p.1))).length = _
    rw [length_filter_keyPred cm.matchesDict (fun k => !(current.contains k))]
    have h2 : ((cm.matchesDict.map Prod.fst).filter (fun k => !(current.contains k))).Nodup :=
      hnd.filter _
    rw [← List.toFinset_card_of_nodup h2]
    congr 1
    ext k
    simp [List.mem_toFinset, List.mem_filter, Finset.mem_sdiff]

/-- Witness for C3 at a concrete store and observed-id set. -/
theorem claim_c3_witness :
    (getRecord (cmC3ex.remove_stale_matches ["a3"]).1.matchesDict "b3").isSome = true
      ↔ ((getRecord cmC3ex.matchesDict "b3").isSome = true ∧ "b3" ∈ ["a3"]) :=
  (claim_c3_prune cmC3ex ["a3"] (by decide)).1 "b3"

theorem foldl_counts_fst (now : String) (us : List String) :
    ∀ (ms : List (String × MatchInfo)) (n e : Nat),
      (us.foldl (fun acc uuid =>
          if (getRecord acc.1 uuid).isSome then
            (updateMatchesStep now acc.1 uuid, acc.2.1, acc.2.2 + 1)
          else
            (updateMatchesStep now acc.1 uuid, acc.2.1 + 1, acc.2.2))
        (ms, n, e)).1 = us.foldl (updateMatchesStep now) ms := by
  induction us with
  | nil =>
    intro ms n e
    rfl
  | cons u rest ih =>
    intro ms n e
    by_cases h : (getRecord ms u).isSome = true <;>
      simp [List.foldl_cons, h, ih]

theorem update_matches_matchesDict (cm : ConfigManager) (urls : List String) (now : String) :
    (cm.update_matches urls now).1.matchesDict =
      (extractUuids urls).foldl (updateMatchesStep now) cm.matchesDict := by
  show ((extractUuids urls).foldl _ (cm.matchesDict, 0, 0)).1 = _
  rw [foldl_counts_fst]

theorem umStep_getRecord_present (now : String) (ms : List (String × MatchInfo)) (uuid v : String)
    (h : (getRecord ms v).isSome = true) :
    getRecord (updateMatchesStep now ms uuid) v =
      if v = uuid then (getRecord ms v).map (fun m => { m with last_seen := now })
      else getRecord ms v := by
  unfold updateMatchesStep
  by_cases hk : (getRecord ms uuid).isSome = true
  · rw [if_pos hk, getRecord_setRecord]
    by_cases hv : v = uuid
    · subst hv; simp
    · simp [hv]
  · rw [if_neg hk]
    have hv : ¬(v = uuid) := by
      intro hh
      subst hh
      exact hk h
    rw [if_neg hv]
    exact getRecord_append_left ms _ v h

theorem umStep_getRecord_other (now : String) (ms : List (String × MatchInfo)) (uuid v : String)
    (hv : ¬(v = uuid)) :
    getRecord (updateMatchesStep now ms uuid) v = getRecord ms v := by
  unfold updateMatchesStep
  by_cases hk : (getRecord ms uuid).isSome = true
  · rw [if_pos hk, getRecord_setRecord, if_neg hv]
  · rw [if_neg hk]
    cases hx : getRecord ms v with
    | none =>
      rw [getRecord_append_right ms _ v hx]
      have hvu : ¬(uuid = v) := fun hh => hv hh.symm
      simp [getRecord, hvu]
    | some r =>
      rw [getRecord_append_left ms _ v (by rw [hx]; rfl), hx]

theorem umStep_preserves_isSome (now : String) (ms : List (String × MatchInfo)) (uuid v : String)
    (h : (getRecord ms v).isSome = true) :
    (getRecord (updateMatchesStep now ms uuid) v).isSome = true := by
  rw [umStep_getRecord_present now ms uuid v h]
  by_cases hv : v = uuid
  · subst hv
    simp [h]
  · simp [hv, h]

theorem umStep_self_present (now : String) (ms : List (String × MatchInfo)) (uuid : String) :
    (getRecord (updateMatchesStep now ms uuid) uuid).isSome = true := by
  unfold updateMatchesStep
  by_cases h : (getRecord ms uuid).isSome = true
  · simp only [h, if_true]
    rw [getRecord_setRecord]
    simp only [if_pos rfl]
    cases hx : getRecord ms uuid with
    | none => rw [hx] at h; simp at h
    | some r => simp
  · have h0 : getRecord ms uuid = none := by
      cases hx : getRecord ms uuid with
      | none => rfl
      | some r => rw [hx] at h; simp at h
    simp only [h, if_false, Bool.false_eq_true]
    rw [getRecord_append_right ms _ uuid h0]
    simp [getRecord]

theorem umFold_preserves_isSome (now : String) (us : List String) :
    ∀ (ms : List (String × MatchInfo)) (v : String), (getRecord ms v).isSome = true →
      (getRecord (us.foldl (updateMatchesStep now) ms) v).isSome = true := by
  induction us with
  | nil =>
    intro ms v h
    exact h
  | cons u rest ih =>
    intro ms v h
    exact ih _ v (umStep_preserves_isSome now ms u v h)

theorem umFold_mem_present (now : String) (us : List String) :
    ∀ (ms : List (String × MatchInfo)) (v : String), v ∈ us →
      (getRecord (us.foldl (updateMatchesStep now) ms) v).isSome = true := by
  induction us with
  | nil =>
    intro ms v h
    simp at h
  | cons u rest ih =>
    intro ms v h
    rcases List.mem_cons.mp h with h1 | h2
    · subst h1
      exact umFold_preserves_isSome now rest _ v (umStep_self_present now ms v)
    · exact ih _ v h2

theorem umFold_allPresent (now : String) (us : List String) (hnd : us.Nodup) :
    ∀ (ms : List (String × MatchInfo)) (v : String),
      (∀ w ∈ us, (getRecord ms w).isSome = true) →
      getRecord (us.foldl (updateMatchesStep now) ms) v =
        if v ∈ us then (getRecord ms v).map (fun m => { m with last_seen := now })
        else getRecord ms v := by
  induction us with
  | nil =>
    intro ms v h
    simp
  | cons u rest ih =>
    intro ms v hall
    have hnd' := List.nodup_cons.mp (by exact hnd)
    have hu : (getRecord ms u).isSome = true := hall u (List.mem_cons_self u rest)
    have hall' : ∀ w ∈ rest, (getRecord (updateMatchesStep now ms u) w).isSome = true :=
      fun w hw => umStep_preserves_isSome now ms u w (hall w (List.mem_cons_of_mem u hw))
    rw [List.foldl_cons, ih hnd'.2 _ v hall']
    by_cases hv1 : v = u
    · subst hv1
      rw [umStep_getRecord_present now ms v v hu]
      simp [hnd'.1, List.mem_cons]
    · rw [umStep_getRecord_other now ms u v hv1]
      by_cases hv2 : v ∈ rest <;> simp [hv1, hv2, List.mem_cons]

/-- C4: a second `update_matches` call with the same url list, right
after a first one, preserves the presence of every record and changes no
field of any record other than (possibly) `last_seen`; in particular
`status`, `court_assigned` and `notified` are unchanged. -/
theorem claim_c4_idempotent_reconcile (cm : ConfigManager) (urls : List String)
    (t1 t2 : String) (u : String) (r : MatchInfo)
    (hr : getRecord (cm.update_matches urls t1).1.matchesDict u = some r) :
    (∀ v, (getRecord ((cm.update_matches urls t1).1.update_matches urls t2).1.matchesDict v).isSome
        = (getRecord (cm.update_matches urls t1).1.matchesDict v).isSome)
    ∧ ∃ r', getRecord ((cm.update_matches urls t1).1.update_matches urls t2).1.matchesDict u = some r'
        ∧ r'.status = r.status ∧ r'.court_assigned = r.court_assigned
        ∧ r'.notified = r.notified ∧ r' = { r with last_seen := r'.last_seen } := by
  have hkey : ∀ w ∈ extractUuids urls,
      (getRecord (cm.update_matches urls t1).1.matchesDict w).isSome = true := by
    intro w hw
    rw [update_matches_matchesDict]
    exact umFold_mem_present t1 (extractUuids urls) cm.matchesDict w hw
  have hchar : ∀ v, getRecord ((cm.update_matches urls t1).1.update_matches urls t2).1.matchesDict v =
      if v ∈ extractUuids urls then
        (getRecord (cm.update_matches urls t1).1.matchesDict v).map
          (fun m => { m with last_seen := t2 })
      else getRecord (cm.update_matches urls t1).1.matchesDict v := by
    intro v
    rw [update_matches_matchesDict (cm.update_matches urls t1).1 urls t2]
    exact umFold_allPresent t2 (extractUuids urls) (List.nodup_dedup _) _ v hkey
  constructor
  · intro v
    rw [hchar v]
    by_cases hv : v ∈ extractUuids urls <;> simp [hv]
  · rw [hchar u]
    by_cases hu : u ∈ extractUuids urls
    · exact ⟨{ r with last_seen := t2 }, by simp [hu, hr], rfl, rfl, rfl, rfl⟩
    · exact ⟨r, by simp [hu, hr], rfl, rfl, rfl, rfl⟩

/-- Witness for C4 at a concrete (initially empty) store and url list. -/
theorem claim_c4_witness :
    ∃ r', getRecord (ConfigManager.update_matches
          ((ConfigManager.mk []).update_matches
            ["https://pickleball.com/results/match/w4"] "t1").1
          ["https://pickleball.com/results/match/w4"] "t2").1.matchesDict "w4" = some r'
        ∧ r'.status = (mkNewMatch "w4" "t1").status
        ∧ r'.court_assigned = (mkNewMatch "w4" "t1").court_assigned
        ∧ r'.notified = (mkNewMatch "w4" "t1").notified
        ∧ r' = { mkNewMatch "w4" "t1" with last_seen := r'.last_seen } :=
  (claim_c4_idempotent_reconcile (ConfigManager.mk [])
    ["https://pickleball.com/results/match/w4"] "t1" "t2" "w4"
    (mkNewMatch "w4" "t1") (by decide)).2

/-- C5 counterexample: with two pending matches whose dispatches both
succeed, the notification pass emits
`[dispatch a5, markNotified a5, dispatch b5, markNotified b5, saveConfig]`:
no `save_config` occurs between the first `mark_as_notified` and the
second dispatch, so the store is not persisted after every
`mark_as_notified` call. -/
theorem claim_c5_counterexample :
    marksPersistedBeforeNextDispatch false
      (process_pending_notifications cmC5ex (fun _ => true) "t9").2.2 = false := by
  rfl

theorem notify_foldl_no_save (sendOk : String → Bool) (now : String) (ms : List MatchInfo) :
    ∀ (acc : ConfigManager × Nat × List NotifyEvent),
      NotifyEvent.saveConfig ∉ acc.2.2 →
      NotifyEvent.saveConfig ∉ (ms.foldl (fun acc m =>
        if sendOk m.uuid then
          (acc.1.mark_as_notified m.uuid now, acc.2.1 + 1,
           acc.2.2 ++ [NotifyEvent.dispatch m.uuid true, NotifyEvent.markNotified m.uuid])
        else
          (acc.1, acc.2.1, acc.2.2 ++ [NotifyEvent.dispatch m.uuid false])) acc).2.2 := by
  induction ms with
  | nil =>
    intro acc h
    exact h
  | cons m rest ih =>
    intro acc h
    rw [List.foldl_cons]
    by_cases hs : sendOk m.uuid = true
    · simp only [hs, if_true]
      apply ih
      simp [List.mem_append, h]
    · simp only [hs, Bool.false_eq_true, if_false]
      apply ih
      simp [List.mem_append, h]

/-- C5 amended: the notification pass persists the store exactly once,
after the whole loop over the pending records (and not at all when no
record is pending): its event trace is either empty or ends in a single
final `saveConfig` event. -/
theorem claim_c5_amended_single_save (cm : ConfigManager) (sendOk : String → Bool) (now : String) :
    (cm.get_pending_notifications = [] ∧ (process_pending_notifications cm sendOk now).2.2 = [])
    ∨ ∃ body, (process_pending_notifications cm sendOk now).2.2 = body ++ [NotifyEvent.saveConfig]
        ∧ NotifyEvent.saveConfig ∉ body := by
  by_cases hp : cm.get_pending_notifications.isEmpty = true
  · left
    refine ⟨by simpa using hp, ?_⟩
    unfold process_pending_notifications
    simp [hp]
  · right
    have hp' : cm.get_pending_notifications.isEmpty = false := by
      cases hx : cm.get_pending_notifications.isEmpty
      · rfl
      · exact absurd hx hp
    unfold process_pending_notifications
    simp only [hp', Bool.false_eq_true, if_false]
    refine ⟨_, rfl, ?_⟩
    exact notify_foldl_no_save sendOk now cm.get_pending_notifications (cm, 0, []) (by simp)

/-- C6 counterexample: a record whose completion marker is set
(`cmC6ex`, uuid `u6`) loses the marker when a later
`update_court_assignment` call passes no completion marker: the call
overwrites `match_completed` with `None`. -/
theorem claim_c6_counterexample :
    (getRecord cmC6ex.matchesDict "u6").map MatchInfo.match_completed
        = some (some "2025-01-01T00:00:00")
    ∧ (getRecord (cmC6ex.update_court_assignment "u6" "CC8" true none "t1").matchesDict "u6").map
        MatchInfo.match_completed = some none := by
  constructor <;> rfl

/-- C6 amended: `update_court_assignment` on a known uuid always
replaces the record's `match_completed` with the call's own
`match_completed` argument — the marker survives only as long as every
later call passes it again, and a call passing `None` clears it. -/
theorem claim_c6_amended_marker_overwritten (cm : ConfigManager) (uuid ct : String) (a : Bool)
    (mc : Option String) (now : String) (r : MatchInfo)
    (hr : getRecord cm.matchesDict uuid = some r) :
    ∃ r', getRecord (cm.update_court_assignment uuid ct a mc now).matchesDict uuid = some r'
      ∧ r'.match_completed = mc := by
  refine ⟨applyCourtResultRecord ct a mc now r, ?_,
    applyCourtResultRecord_match_completed ct a mc now r⟩
  rw [uca_getRecord]
  simp [hr]

/-- Witness for the amended C6 at a concrete store. -/
theorem claim_c6_witness :
    ∃ r', getRecord (cmC6ex.update_court_assignment "u6" "CC8" true none "t2").matchesDict "u6"
      = some r' ∧ r'.match_completed = none :=
  claim_c6_amended_marker_overwritten cmC6ex "u6" "CC8" true none "t2"
    { mkNewMatch "u6" "t0" with
        status := "assigned", court_assigned := true, court_title := some "CC3",
        match_completed := some "2025-01-01T00:00:00", notified := true,
        notification_timestamp := some "t0" }
    (by decide)

/-- C7 (code bug): on a successful response whose payload holds a
non-string roster name (`team_one_player_one_name = 5`), `get_match_info`
does not return a failed `MatchApiResult`: the `.strip()` call inside
`_extract_player_names` raises `AttributeError`, which is outside the
caught exception classes (`RequestException`, `KeyError`, `IndexError`,
`ValueError`) and propagates to the caller. -/
theorem claim_c7_uncaught_attribute_error :
    get_match_info "11111111-2222-3333-4444-555555555555" c7FailingResp
      = .error (.attributeError "strip") := by
  rfl

/-- C8 (code bug): a persisted-state file whose JSON content is the
array `[]` makes `load_config` raise: `data.get('matches', {})` on a
list raises `AttributeError`, which is outside the caught exception
classes (`JSONDecodeError`, `KeyError`, `TypeError`) and propagates,
instead of being logged and replaced by an empty store. -/
theorem claim_c8_uncaught_attribute_error :
    load_config (.parsed (.jarr [])) = .error (.attributeError "get") := by
  rfl

theorem objFind_append_left (fs gs : List (String × JVal)) (k : String)
    (h : (objFind fs k).isSome = true) :
    objFind (fs ++ gs) k = objFind fs k := by
  induction fs with
  | nil => simp [objFind] at h
  | cons p ps ih =>
    by_cases h1 : p.1 = k
    · simp [objFind, h1]
    · have h' : (objFind ps k).isSome = true := by
        simpa [objFind, h1] using h
      simp [objFind, h1, ih h']

theorem objFind_append_right (fs gs : List (String × JVal)) (k : String)
    (h : objFind fs k = none) :
    objFind (fs ++ gs) k = objFind gs k := by
  induction fs with
  | nil => simp [objFind]
  | cons p ps ih =>
    by_cases h1 : p.1 = k
    · simp [objFind, h1] at h
    · have h' : objFind ps k = none := by
        simpa [objFind, h1] using h
      simp [objFind, h1, ih h']

theorem objFind_rosterField_same (o : Option (Option String)) (fs : List (String × JVal))
    (key : String) (h : objFind fs key = none) :
    objFind (rosterField o fs key) key = o.map encodeW := by
  cases o with
  | none => simp [rosterField, h]
  | some w =>
    rw [show rosterField (some w) fs key = fs ++ [(key, encodeW w)] from rfl,
      objFind_append_right fs _ key h]
    simp [objFind]

theorem objFind_rosterField_other (o : Option (Option String)) (fs : List (String × JVal))
    (key k : String) (hk : ¬(key = k)) :
    objFind (rosterField o fs key) k = objFind fs k := by
  cases o with
  | none => rfl
  | some w =>
    cases hx : objFind fs k with
    | none =>
      rw [show rosterField (some w) fs key = fs ++ [(key, encodeW w)] from rfl,
        objFind_append_right fs _ k hx]
      simp [objFind, hk, hx]
    | some v =>
      rw [show rosterField (some w) fs key = fs ++ [(key, encodeW w)] from rfl,
        objFind_append_left fs _ k (by rw [hx]; rfl), hx]

theorem roster_lookup_t1p1 (rf : RosterFields) :
    objFind (rosterFieldsList rf) "team_one_player_one_name" = rf.t1p1.map encodeW := by
  unfold rosterFieldsList
  rw [objFind_rosterField_other _ _ _ _ (by decide)]
  rw [objFind_rosterField_other _ _ _ _ (by decide)]
  rw [objFind_rosterField_other _ _ _ _ (by decide)]
  exact objFind_rosterField_same rf.t1p1 [] _ rfl

theorem roster_lookup_t1p2 (rf : RosterFields) :
    objFind (rosterFieldsList rf) "team_one_player_two_name" = rf.t1p2.map encodeW := by
  unfold rosterFieldsList
  rw [objFind_rosterField_other _ _ _ _ (by decide)]
  rw [objFind_rosterField_other _ _ _ _ (by decide)]
  refine objFind_rosterField_same rf.t1p2 _ _ ?_
  rw [objFind_rosterField_other _ _ _ _ (by decide)]
  rfl

theorem roster_lookup_t2p1 (rf : RosterFields) :
    objFind (rosterFieldsList rf) "team_two_player_one_name" = rf.t2p1.map encodeW := by
  unfold rosterFieldsList
  rw [objFind_rosterField_other _ _ _ _ (by decide)]
  refine objFind_rosterField_same rf.t2p1 _ _ ?_
  rw [objFind_rosterField_other _ _ _ _ (by decide)]
  rw [objFind_rosterField_other _ _ _ _ (by decide)]
  rfl

theorem roster_lookup_t2p2 (rf : RosterFields) :
    objFind (rosterFieldsList rf) "team_two_player_two_name" = rf.t2p2.map encodeW := by
  unfold rosterFieldsList
  refine objFind_rosterField_same rf.t2p2 _ _ ?_
  rw [objFind_rosterField_other _ _ _ _ (by decide)]
  rw [objFind_rosterField_other _ _ _ _ (by decide)]
  rw [objFind_rosterField_other _ _ _ _ (by decide)]
  rfl

theorem pyCondStrip_encodeW (w : Option String) :
    pyCondStrip (encodeW w) = .ok (match w with
      | none => ""
      | some s => if s == "" then "" else pyStripStr s) := by
  cases w with
  | none => rfl
  | some s =>
    by_cases hs : s == ""
    · have hs' : s = "" := by simpa using hs
      subst hs'
      rfl
    · have hs0 : (s == "") = false := by
        cases hx : s == ""
        · rfl
        · exact absurd hx hs
      simp [pyCondStrip, encodeW, pyTruthyJ, pyStrip, hs0]

theorem exceptBind_ok {ε α β : Type} (a : α) (f : α → Except ε β) :
    (do
      let x ← Except.ok (ε := ε) a
      f x) = f a := rfl

theorem exceptPure_ok {ε α : Type} (a : α) :
    (pure a : Except ε α) = Except.ok a := rfl

theorem collect_cons (fs : List (String × JVal)) (k : String) (ks : List String)
    (o : Option (Option String)) (h : objFind fs k = o.map encodeW)
    (tail : List String) (htail : collectPlayers (.jobj fs) ks = .ok tail) :
    collectPlayers (.jobj fs) (k :: ks) = .ok
      (match specContrib o with
       | none => tail
       | some n => n :: tail) := by
  cases o with
  | none =>
    simp only [Option.map_none'] at h
    simp [collectPlayers, pyContains, h, htail, specContrib, exceptBind_ok]
  | some w =>
    simp only [Option.map_some'] at h
    cases w with
    | none =>
      simp [collectPlayers, pyContains, pySubscript, h, htail, specContrib,
        encodeW, pyCondStrip, pyTruthyJ, exceptBind_ok]
    | some s =>
      by_cases hs : s = ""
      · subst hs
        have htrim : pyStripStr "" = "" := rfl
        simp [collectPlayers, pyContains, pySubscript, h, htail, specContrib,
          encodeW, pyCondStrip, pyTruthyJ, pyStrip, htrim, exceptBind_ok]
      · by_cases ht : pyStripStr s = ""
        · simp [collectPlayers, pyContains, pySubscript, h, htail, specContrib,
            encodeW, pyCondStrip, pyTruthyJ, pyStrip, hs, ht, exceptBind_ok]
        · simp [collectPlayers, pyContains, pySubscript, h, htail, specContrib,
            encodeW, pyCondStrip, pyTruthyJ, pyStrip, hs, ht, exceptBind_ok]

theorem collect_pair (fs : List (String × JVal)) (k1 k2 : String)
    (o1 o2 : Option (Option String))
    (h1 : objFind fs k1 = o1.map encodeW) (h2 : objFind fs k2 = o2.map encodeW) :
    collectPlayers (.jobj fs) [k1, k2] = .ok (specSideNames [o1, o2]) := by
  have t2 : collectPlayers (.jobj fs) [k2]
      = .ok (match specContrib o2 with | none => [] | some n => [n]) :=
    collect_cons fs k2 [] o2 h2 [] (by simp [collectPlayers])
  have t1 := collect_cons fs k1 [k2] o1 h1 _ t2
  rw [t1]
  cases hc1 : specContrib o1 <;> cases hc2 : specContrib o2 <;>
    simp [specSideNames, List.filterMap_cons, hc1, hc2]

/-- C9: on every roster field mapping (up to two optional name fields
per side, each `null` or a string), the source's `_extract_player_names`
computes exactly the partner/opponents described by the specification
(`specExtract`): no roster info when neither side contains the tracked
player's first name case-insensitively, otherwise the first other name
of the tracked player's side and the other side's names in field
order. -/
theorem claim_c9_roster_extraction (rf : RosterFields) :
    _extract_player_names (rosterToObj rf) = .ok (specExtract rf) := by
  have hone : collectPlayers (rosterToObj rf)
      ["team_one_player_one_name", "team_one_player_two_name"]
      = .ok (specSideNames [rf.t1p1, rf.t1p2]) :=
    collect_pair (rosterFieldsList rf) _ _ rf.t1p1 rf.t1p2
      (roster_lookup_t1p1 rf) (roster_lookup_t1p2 rf)
  have htwo : collectPlayers (rosterToObj rf)
      ["team_two_player_one_name", "team_two_player_two_name"]
      = .ok (specSideNames [rf.t2p1, rf.t2p2]) :=
    collect_pair (rosterFieldsList rf) _ _ rf.t2p1 rf.t2p2
      (roster_lookup_t2p1 rf) (roster_lookup_t2p2 rf)
  unfold _extract_player_names specExtract
  rw [hone, htwo]
  simp only [exceptBind_ok]
  by_cases hA : (specSideNames [rf.t1p1, rf.t1p2]).any containsAdam = true
  · simp [hA, exceptPure_ok]
  · have hA0 : ((specSideNames [rf.t1p1, rf.t1p2]).any containsAdam) = false := by
      cases hx : (specSideNames [rf.t1p1, rf.t1p2]).any containsAdam
      · rfl
      · exact absurd hx hA
    by_cases hB : (specSideNames [rf.t2p1, rf.t2p2]).any containsAdam = true
    · simp [hA0, hB, exceptPure_ok]
    · have hB0 : ((specSideNames [rf.t2p1, rf.t2p2]).any containsAdam) = false := by
        cases hx : (specSideNames [rf.t2p1, rf.t2p2]).any containsAdam
        · rfl
        · exact absurd hx hB
      simp [hA0, hB0, exceptPure_ok]

theorem umFold_preserves_fields (now : String) (us : List String) :
    ∀ (ms : List (String × MatchInfo)) (u : String) (r : MatchInfo),
      getRecord ms u = some r →
      ∃ r', getRecord (us.foldl (updateMatchesStep now) ms) u = some r'
        ∧ r'.status = r.status ∧ r'.court_assigned = r.court_assigned
        ∧ r'.notified = r.notified := by
  induction us with
  | nil =>
    intro ms u r h
    exact ⟨r, h, rfl, rfl, rfl⟩
  | cons v rest ih =>
    intro ms u r h
    by_cases hv : u = v
    · subst hv
      have h1 : getRecord (updateMatchesStep now ms u) u = some { r with last_seen := now } := by
        rw [umStep_getRecord_present now ms u u (by rw [h]; rfl)]
        simp [h]
      obtain ⟨r', hr', h2, h3, h4⟩ := ih _ u { r with last_seen := now } h1
      exact ⟨r', hr', h2, h3, h4⟩
    · have h1 : getRecord (updateMatchesStep now ms v) u = some r := by
        rw [umStep_getRecord_other now ms v u hv]
        exact h
      exact ih _ u r h1

theorem trackerStep_preserves_inv (cm : ConfigManager) (op : TrackerOp) (u : String)
    (r : MatchInfo) (hr : getRecord cm.matchesDict u = some r)
    (hst : r.status = "assigned") (hca : r.court_assigned = false) :
    ∀ r', getRecord (trackerStep cm op).matchesDict u = some r' →
      r'.status = "assigned" ∧ r'.court_assigned = false := by
  intro r' hr'
  cases op with
  | reconcile urls now =>
    rw [show (trackerStep cm (.reconcile urls now)).matchesDict
        = (cm.update_matches urls now).1.matchesDict from rfl,
      update_matches_matchesDict] at hr'
    obtain ⟨r'', hr'', h2, h3, _⟩ :=
      umFold_preserves_fields now (extractUuids urls) cm.matchesDict u r hr
    rw [hr''] at hr'
    cases hr'
    exact ⟨h2.trans hst, h3.trans hca⟩
  | pruneStale current =>
    rw [show (trackerStep cm (.pruneStale current)).matchesDict
        = cm.matchesDict.filter (fun p => current.contains p.1) from rfl,
      getRecord_filter_keyPred] at hr'
    by_cases hc : current.contains u = true
    · rw [if_pos hc, hr] at hr'
      cases hr'
      exact ⟨hst, hca⟩
    · rw [if_neg hc] at hr'
      cases hr'
  | courtCheck uuid ct a mc now =>
    by_cases hv : u = uuid
    · subst hv
      have hbf : (r.status == "future") = false := by
        rw [hst]; decide
      rw [show trackerStep cm (.courtCheck u ct a mc now)
          = (match getRecord cm.matchesDict u with
             | some r0 =>
                 if r0.status == "future" then
                   cm.update_court_assignment u ct a mc now
                 else cm
             | none => cm) from rfl, hr] at hr'
      simp only [hbf, Bool.false_eq_true, if_false] at hr'
      rw [hr] at hr'
      cases hr'
      exact ⟨hst, hca⟩
    · have hrw : getRecord (trackerStep cm (.courtCheck uuid ct a mc now)).matchesDict u
          = getRecord cm.matchesDict u := by
        cases hx : getRecord cm.matchesDict uuid with
        | none =>
          rw [show trackerStep cm (.courtCheck uuid ct a mc now)
              = (match getRecord cm.matchesDict uuid with
                 | some r0 =>
                     if r0.status == "future" then
                       cm.update_court_assignment uuid ct a mc now
                     else cm
                 | none => cm) from rfl, hx]
        | some r0 =>
          rw [show trackerStep cm (.courtCheck uuid ct a mc now)
              = (match getRecord cm.matchesDict uuid with
                 | some r0 =>
                     if r0.status == "future" then
                       cm.update_court_assignment uuid ct a mc now
                     else cm
                 | none => cm) from rfl, hx]
          by_cases hf : (r0.status == "future") = true
          · simp only [hf, if_true]
            rw [uca_getRecord]
            simp [hv]
          · simp only [hf, Bool.false_eq_true, if_false]
      rw [hrw, hr] at hr'
      cases hr'
      exact ⟨hst, hca⟩
  | notifyMark uuid now =>
    rw [show (trackerStep cm (.notifyMark uuid now)).matchesDict
        = (cm.mark_as_notified uuid now).matchesDict from rfl,
      man_getRecord] at hr'
    by_cases hv : u = uuid
    · subst hv
      rw [if_pos rfl, hr] at hr'
      simp only [Option.map_some'] at hr'
      cases hr'
      exact ⟨hst, hca⟩
    · rw [if_neg hv, hr] at hr'
      cases hr'
      exact ⟨hst, hca⟩

theorem trackerOps_preserve_inv (ops : List TrackerOp) :
    ∀ (cm : ConfigManager) (u : String) (r : MatchInfo),
      getRecord cm.matchesDict u = some r →
      r.status = "assigned" → r.court_assigned = false →
      (∀ c ∈ trackerTrace cm ops, (getRecord c.matchesDict u).isSome = true) →
      ∃ r', getRecord (applyTrackerOps cm ops).matchesDict u = some r'
        ∧ r'.status = "assigned" ∧ r'.court_assigned = false := by
  induction ops with
  | nil =>
    intro cm u r h hst hca _
    exact ⟨r, h, hst, hca⟩
  | cons op rest ih =>
    intro cm u r h hst hca hlive
    have hlive' : ∀ c ∈ trackerTrace (trackerStep cm op) rest,
        (getRecord c.matchesDict u).isSome = true := by
      intro c hc
      exact hlive c (List.mem_cons_of_mem cm hc)
    have hhead : trackerStep cm op ∈ trackerTrace (trackerStep cm op) rest := by
      cases rest <;> simp [trackerTrace]
    have hnext : (getRecord (trackerStep cm op).matchesDict u).isSome = true :=
      hlive' _ hhead
    obtain ⟨r1, hr1⟩ : ∃ r1, getRecord (trackerStep cm op).matchesDict u = some r1 := by
      cases hx : getRecord (trackerStep cm op).matchesDict u with
      | none => rw [hx] at hnext; simp at hnext
      | some r1 => exact ⟨r1, rfl⟩
    have hinv := trackerStep_preserves_inv cm op u r h hst hca r1 hr1
    exact ih (trackerStep cm op) u r1 hr1 hinv.1 hinv.2 hlive'

/-- C10: an `"assigned"` record is never returned by
`get_matches_needing_court_check`; an `update_court_assignment` call
reporting `assigned = False` keeps the status `"assigned"` while
clearing `court_assigned` and `court_title`; and from then on, under
every sequence of tracker-issued store operations during which the
record stays stored (court checks being guarded by `"future"` status,
as in `scrape_player_tournament_results`), the record keeps status
`"assigned"` with `court_assigned = False` and is returned by neither
`get_matches_needing_court_check` nor `get_pending_notifications`. -/
theorem claim_c10_assigned_never_rechecked (cm : ConfigManager) (u ct : String)
    (mc : Option String) (now : String) (r : MatchInfo)
    (hr : getRecord cm.matchesDict u = some r) (hst : r.status = "assigned") :
    r ∉ cm.get_matches_needing_court_check
    ∧ ∃ r1, getRecord (cm.update_court_assignment u ct false mc now).matchesDict u = some r1
        ∧ r1.status = "assigned" ∧ r1.court_assigned = false ∧ r1.court_title = none
        ∧ ∀ ops : List TrackerOp,
            (∀ c ∈ trackerTrace (cm.update_court_assignment u ct false mc now) ops,
              (getRecord c.matchesDict u).isSome = true) →
            ∃ r2, getRecord
                (applyTrackerOps (cm.update_court_assignment u ct false mc now) ops).matchesDict u
                = some r2
              ∧ r2.status = "assigned" ∧ r2.court_assigned = false
              ∧ r2 ∉ (applyTrackerOps (cm.update_court_assignment u ct false mc now)
                  ops).get_matches_needing_court_check
              ∧ r2 ∉ (applyTrackerOps (cm.update_court_assignment u ct false mc now)
                  ops).get_pending_notifications := by
  constructor
  · intro hmem
    simp only [ConfigManager.get_matches_needing_court_check, List.mem_filter] at hmem
    rw [hst] at hmem
    exact absurd hmem.2 (by decide)
  · have hr1 : getRecord (cm.update_court_assignment u ct false mc now).matchesDict u
        = some (applyCourtResultRecord ct false mc now r) := by
      rw [uca_getRecord]
      simp [hr]
    have h1st : (applyCourtResultRecord ct false mc now r).status = "assigned" := by
      rw [applyCourtResultRecord_status]
      simp [hst]
    have h1ca : (applyCourtResultRecord ct false mc now r).court_assigned = false :=
      applyCourtResultRecord_court_assigned ct false mc now r
    have h1title : (applyCourtResultRecord ct false mc now r).court_title = none := by
      rw [applyCourtResultRecord_court_title]
      simp
    refine ⟨_, hr1, h1st, h1ca, h1title, ?_⟩
    intro ops hlive
    obtain ⟨r2, hr2, h2st, h2ca⟩ := trackerOps_preserve_inv ops
      (cm.update_court_assignment u ct false mc now) u
      (applyCourtResultRecord ct false mc now r) hr1 h1st h1ca hlive
    refine ⟨r2, hr2, h2st, h2ca, ?_, ?_⟩
    · intro hmem
      simp only [ConfigManager.get_matches_needing_court_check, List.mem_filter] at hmem
      rw [h2st] at hmem
      exact absurd hmem.2 (by decide)
    · intro hmem
      simp only [ConfigManager.get_pending_notifications, List.mem_filter] at hmem
      rw [h2ca] at hmem
      simp at hmem

/-- Witness for C10 at a concrete store and concrete operation
sequence. -/
theorem claim_c10_witness :
    ∃ r2, getRecord (applyTrackerOps
        (cmC10ex.update_court_assignment "u0" "CC9" false none "t2") opsC10ex).matchesDict "u0"
      = some r2
      ∧ r2.status = "assigned" ∧ r2.court_assigned = false
      ∧ r2 ∉ (applyTrackerOps (cmC10ex.update_court_assignment "u0" "CC9" false none "t2")
          opsC10ex).get_matches_needing_court_check
      ∧ r2 ∉ (applyTrackerOps (cmC10ex.update_court_assignment "u0" "CC9" false none "t2")
          opsC10ex).get_pending_notifications := by
  obtain ⟨-, r1, hr1, h1, h2, h3, hops⟩ := claim_c10_assigned_never_rechecked cmC10ex "u0" "CC9"
    none "t2"
    { mkNewMatch "u0" "t0" with
        status := "assigned", court_assigned := true, court_title := some "CC4",
        notified := true, notification_timestamp := some "t0" }
    (by decide) (by decide)
  exact hops opsC10ex (by decide)
